import Mathlib

/-!
Verification of the diff-acquisition-and-filtering pipeline in
`.github/ai-code-reviewer/review.py`.

The Python source is shallowly embedded: Python strings become Lean
`String`, the string operations of the source (`split`, `join`, slicing,
`startswith`, the substring test `in`, `os.path.splitext`, `lower`,
`strip`) are translated below as executable functions on `String` /
`List Char`, external processes (`subprocess.run`) and the completion
service become oracle parameters, and raised exceptions become
`Except PyError`.
-/

/-- Python `len(s)`, counting code points like Python does. -/
def pyLen (s : String) : Nat := s.data.length

/-- Python slicing `s[:n]`. -/
def strTake (s : String) (n : Nat) : String := (s.data.take n).asString

/-- Python slicing `s[n:]` (empty when `n` exceeds the length, as in Python). -/
def strDrop (s : String) (n : Nat) : String := (s.data.drop n).asString

/-- Python `s.lower()`, restricted to the ASCII range (all extensions in the
source's allow-list are ASCII). -/
def pyLower (s : String) : String := (s.data.map Char.toLower).asString

/-- Boolean prefix test on character lists (Python `str.startswith`). -/
def charsPrefixOf : List Char → List Char → Bool
  | [], _ => true
  | _ :: _, [] => false
  | a :: p, b :: l => a == b && charsPrefixOf p l

/-- Boolean contiguous-substring test on character lists (Python `sub in s`). -/
def charsInfixOf (p : List Char) : List Char → Bool
  | [] => charsPrefixOf p []
  | b :: l => charsPrefixOf p (b :: l) || charsInfixOf p l

/-- Python `s.startswith(pre)`. -/
def strStartsWith (s pre : String) : Bool := charsPrefixOf pre.data s.data

/-- Python `sub in s` (contiguous substring test). -/
def strContains (s sub : String) : Bool := charsInfixOf sub.data s.data

/-- Python `s.split(sep)` for a one-character separator, on character lists:
every occurrence of `sep` is a cut point and empty pieces are kept, so the
result is always non-empty (`''.split(c) == ['']`). -/
def pySplitChars (sep : Char) : List Char → List (List Char)
  | [] => [[]]
  | c :: cs =>
    let r := pySplitChars sep cs
    if c == sep then [] :: r else (c :: r.headD []) :: r.tail

/-- Python `s.split(sep)` for a one-character separator. -/
def pySplit (sep : Char) (s : String) : List String :=
  (pySplitChars sep s.data).map List.asString

/-- Python `sep.join(ls)` for a one-character separator. -/
def pyJoin (sep : Char) (ls : List String) : String :=
  (List.intercalate [sep] (ls.map String.data)).asString

/-- Index of the last occurrence of `c` (Python `str.rfind`, as an `Option`). -/
def lastIdxOf (c : Char) : List Char → Option Nat
  | [] => none
  | a :: l =>
    match lastIdxOf c l with
    | some i => some (i + 1)
    | none => if a == c then some 0 else none

/-- The extension component of Python `os.path.splitext(p)` on POSIX paths:
the suffix starting at the last `'.'`, provided that dot lies inside the last
path component and is preceded there by some non-dot character (so dotfiles
such as `.bashrc` and names like `..py` have no extension). -/
def splitextExt (p : String) : String :=
  let cs := p.data
  match lastIdxOf '.' cs with
  | none => ""
  | some dotIdx =>
    let nameStart : Nat :=
      match lastIdxOf '/' cs with
      | some sepIdx => sepIdx + 1
      | none => 0
    if nameStart ≤ dotIdx then
      if ((cs.drop nameStart).take (dotIdx - nameStart)).any (fun a => a != '.') then
        (cs.drop dotIdx).asString
      else ""
    else ""

/-- Whitespace characters stripped by Python `str.strip()` (ASCII range). -/
def pyIsSpace (c : Char) : Bool :=
  c == ' ' || c == '\t' || c == '\n' || c == '\x0b' || c == '\x0c' || c == '\r'

/-- Python `not s.strip()`: the string is empty or whitespace only. -/
def pyIsBlank (s : String) : Bool := s.data.all pyIsSpace

/-! ## Fixed configuration constants (review.py lines 36-88, 171-173, 192) -/

/-- review.py lines 37-44: the allow-set of reviewable code extensions. -/
def CODE_EXTENSIONS : List String :=
  [".py", ".js", ".ts", ".tsx", ".jsx",
   ".go", ".rs", ".java", ".kt",
   ".c", ".cpp", ".h", ".hpp",
   ".rb", ".php", ".swift",
   ".cs", ".scala", ".clj",
   ".sh", ".bash", ".zsh"]

/-- review.py lines 47-55: path fragments excluded by substring match. -/
def EXCLUDED_PATHS : List String :=
  ["node_modules/", "vendor/", "__pycache__/", ".git/", "dist/", "build/", ".next/"]

/-- review.py lines 57-88: the fixed instructional prompt prepended to the diff. -/
def REVIEW_PROMPT : String := "あなたは経験豊富なシニアソフトウェアエンジニアです。
以下のコード変更をレビューしてください。

## レビュー観点
1. **バグの可能性**: ロジックエラー、エッジケースの見落とし、null/undefined問題
2. **セキュリティ問題**: インジェクション、認証・認可の問題、機密情報の露出
3. **パフォーマンス問題**: N+1クエリ、不要なループ、メモリリーク
4. **コードスタイル/可読性**: 命名、複雑さ、コードの重複
5. **ベストプラクティス**: 言語固有のイディオム、設計パターン

## 出力形式
以下のMarkdown形式で出力してください:

### 🔍 レビューサマリー
（全体的な評価を1-2文で）

### 🚨 重要な問題
（もしあれば、修正が必要な問題をリストアップ）

### 💡 改善提案
（もしあれば、より良くするための提案をリストアップ）

### ✅ 良い点
（もしあれば、良い実装をリストアップ）

問題がない場合は「特に問題は見つかりませんでした」と記載してください。
建設的で具体的なフィードバックを心がけてください。

---

## コード変更（diff）:
"

/-- review.py line 173: the fixed marker appended after truncation. -/
def TRUNCATION_NOTICE : String := "\n\n... (差分が大きいため一部省略されました)"

/-! ## The Diff Filter (review.py lines 135-160) -/

/-- review.py lines 148-155: the inclusion test applied to the path parsed
from a file-section header. `is_excluded` is a substring match against
`EXCLUDED_PATHS`; `is_code` compares the lower-cased `os.path.splitext`
extension against `CODE_EXTENSIONS`; the file is included iff it is code
and not excluded. -/
def include_file (file_path : String) : Bool :=
  let is_excluded := EXCLUDED_PATHS.any (fun excluded => strContains file_path excluded)
  let is_code := CODE_EXTENSIONS.contains (pyLower (splitextExt file_path))
  is_code && !is_excluded

/-- review.py lines 142-155, the per-line flag update: on a line starting
with `diff --git` that splits (on single spaces) into at least 4 parts, the
flag is recomputed as `include_file` of the third part with its first two
characters (`a/`) stripped; on every other line the previous flag is kept. -/
def headerFlag (include_prev : Bool) (line : String) : Bool :=
  if strStartsWith line "diff --git" then
    let parts := pySplit ' ' line
    if 4 ≤ parts.length then include_file (strDrop (parts.getD 2 "") 2)
    else include_prev
  else include_prev

/-- review.py lines 137-158, the loop of `filter_diff` over the list of
lines: the flag starts as the first argument (`False` at the call site);
each line first updates the flag via `headerFlag`, then is kept exactly
when the updated flag is true. -/
def filterLines : Bool → List String → List String
  | _, [] => []
  | include_file_flag, line :: rest =>
    (if headerFlag include_file_flag line then [line] else []) ++
      filterLines (headerFlag include_file_flag line) rest

/-- review.py lines 135-160: `filter_diff` splits on newlines, runs the
single-pass filter with the flag initially false, and joins with newlines. -/
def filter_diff (diff : String) : String :=
  pyJoin '\n' (filterLines false (pySplit '\n' diff))

/-! ## Exceptions, external commands, and JSON values -/

/-- The Python exceptions the script can raise: `subprocess.CalledProcessError`
(from `check=True` runs and the explicit raise in `get_pr_diff`), `ValueError`
(identifier resolution, missing credential), `KeyError` / `TypeError` (dict
access on parsed JSON), and `json` decoding failure. All are caught by the
`__main__` wrapper and mapped to exit status 1. -/
inductive PyError where
  | calledProcessError (returncode : Int) (cmd : List String)
  | valueError (msg : String)
  | keyError (key : String)
  | typeError (msg : String)
  | jsonDecodeError
deriving DecidableEq

/-- The observable outcome of one `subprocess.run(cmd, capture_output=True,
text=True)` invocation. A run of the whole script is parameterized by an
oracle `List String → CmdResult` giving the outcome of each command line. -/
structure CmdResult where
  returncode : Int
  stdout : String
  stderr : String

/-- Parsed JSON values, as returned by Python's `json` module (numbers
restricted to integers, which covers the fields the script reads). -/
inductive JValue where
  | null
  | bool (b : Bool)
  | num (n : Int)
  | str (s : String)
  | arr (elems : List JValue)
  | obj (fields : List (String × JValue))

/-- Lookup in a parsed JSON object (Python dict indexing; `json` parsing
yields one value per key). -/
def jLookup (key : String) : List (String × JValue) → Option JValue
  | [] => none
  | (k, v) :: rest => if k == key then some v else jLookup key rest

mutual
/-- Python `==` between JSON values (used by `in` on lists). -/
def jEq : JValue → JValue → Bool
  | JValue.null, JValue.null => true
  | JValue.bool a, JValue.bool b => a == b
  | JValue.num a, JValue.num b => a == b
  | JValue.str a, JValue.str b => a == b
  | JValue.arr a, JValue.arr b => jEqList a b
  | JValue.obj a, JValue.obj b => jEqFields a b
  | _, _ => false
def jEqList : List JValue → List JValue → Bool
  | [], [] => true
  | a :: as, b :: bs => jEq a b && jEqList as bs
  | _, _ => false
def jEqFields : List (String × JValue) → List (String × JValue) → Bool
  | [], [] => true
  | (k, v) :: as, (k2, v2) :: bs => k == k2 && jEq v v2 && jEqFields as bs
  | _, _ => false
end

/-- Python `key in v` for a string `key`: dict key test, list membership,
substring test on strings; on non-containers a `TypeError` is raised. -/
def pyIn (key : String) : JValue → Except PyError Bool
  | JValue.obj fields => Except.ok (jLookup key fields).isSome
  | JValue.arr elems => Except.ok (elems.any (fun e => jEq e (JValue.str key)))
  | JValue.str s => Except.ok (strContains s key)
  | _ => Except.error (PyError.typeError "argument of type is not iterable")

/-- Python `v[key]` for a string `key` on a parsed JSON value: a missing key
raises `KeyError`, indexing a non-dict by a string raises `TypeError`. -/
def jIndex (v : JValue) (key : String) : Except PyError JValue :=
  match v with
  | JValue.obj fields =>
    match jLookup key fields with
    | some x => Except.ok x
    | none => Except.error (PyError.keyError key)
  | _ => Except.error (PyError.typeError "value is not subscriptable by str")

mutual
/-- Python `repr` of a parsed JSON value (string escaping not modeled). -/
def pyRepr : JValue → String
  | JValue.null => "None"
  | JValue.bool true => "True"
  | JValue.bool false => "False"
  | JValue.num n => toString n
  | JValue.str s => "\x27" ++ s ++ "\x27"
  | JValue.arr xs => "[" ++ String.intercalate ", " (pyReprList xs) ++ "]"
  | JValue.obj fs => "\x7b" ++ String.intercalate ", " (pyReprFields fs) ++ "\x7d"
def pyReprList : List JValue → List String
  | [] => []
  | x :: xs => pyRepr x :: pyReprList xs
def pyReprFields : List (String × JValue) → List String
  | [] => []
  | (k, v) :: fs => ("\x27" ++ k ++ "\x27: " ++ pyRepr v) :: pyReprFields fs
end

/-- Python `str(v)`: identity on strings, `repr` otherwise. -/
def pyStr : JValue → String
  | JValue.str s => s
  | v => pyRepr v

/-! ## Identifier Resolver (review.py lines 14-34, `get_pr_number`) -/

/-- review.py lines 29-32: scan `ref.split('/')` for the first component
equal to `pull` that has a successor, and return that successor. -/
def refExtract : List String → Option String
  | p :: q :: rest => if p == "pull" then some q else refExtract (q :: rest)
  | _ => none

/-- review.py lines 17-18, the guard `if event_path and os.path.exists(...)`:
the content of the event file when `GITHUB_EVENT_PATH` is set, non-empty and
the file exists (`files` maps existing paths to their content). -/
def eventContent (env files : String → Option String) : Option String :=
  match env "GITHUB_EVENT_PATH" with
  | some event_path => if event_path == "" then none else files event_path
  | none => none

/-- review.py lines 19-24, the body of the `with open(...)` block:
`some r` when the block returns or raises (`r`), `none` when it falls
through (the parsed event has neither a `pull_request` nor a `number` key).
`jsonLoads` is the external `json.load` parser; `none` models a parse
error, which Python raises as `JSONDecodeError`. -/
def eventLookup (jsonLoads : String → Option JValue) (content : String) :
    Option (Except PyError String) :=
  match jsonLoads content with
  | none => some (Except.error PyError.jsonDecodeError)
  | some event =>
    match pyIn "pull_request" event with
    | Except.error e => some (Except.error e)
    | Except.ok true =>
      some (match jIndex event "pull_request" with
        | Except.error e => Except.error e
        | Except.ok pr =>
          match jIndex pr "number" with
          | Except.error e => Except.error e
          | Except.ok n => Except.ok (pyStr n))
    | Except.ok false =>
      match pyIn "number" event with
      | Except.error e => some (Except.error e)
      | Except.ok true =>
        some (match jIndex event "number" with
          | Except.error e => Except.error e
          | Except.ok n => Except.ok (pyStr n))
      | Except.ok false => none

/-- review.py lines 26-34: the `GITHUB_REF` fallback followed by the final
`raise ValueError`. -/
def refLookup (env : String → Option String) : Except PyError String :=
  let ref := (env "GITHUB_REF").getD ""
  if strContains ref "/pull/" then
    match refExtract (pySplit '/' ref) with
    | some n => Except.ok n
    | none => Except.error (PyError.valueError "PR番号を取得できませんでした")
  else Except.error (PyError.valueError "PR番号を取得できませんでした")

/-- review.py lines 14-34, `get_pr_number`: the event file takes priority
when usable; inside it `pull_request` takes priority over a top-level
`number`; when the block falls through or the file is unusable, the
`GITHUB_REF` fallback runs. -/
def get_pr_number (env files : String → Option String)
    (jsonLoads : String → Option JValue) : Except PyError String :=
  match eventContent env files with
  | some content =>
    match eventLookup jsonLoads content with
    | some r => r
    | none => refLookup env
  | none => refLookup env

/-! ## Diff Source (review.py lines 91-132, `get_repo` and `get_pr_diff`) -/

/-- review.py lines 91-93: `os.environ.get('GITHUB_REPOSITORY', '')`. -/
def get_repo (env : String → Option String) : String :=
  (env "GITHUB_REPOSITORY").getD ""

/-- review.py lines 101-103: the primary `gh pr diff` command line, scoped
to the repository when `GITHUB_REPOSITORY` is non-empty. -/
def ghDiffCmd (env : String → Option String) (pr_number : String) : List String :=
  ["gh", "pr", "diff", pr_number] ++
    (if get_repo env == "" then [] else ["--repo", get_repo env])

/-- review.py lines 116-118: the metadata query for base/head branch names. -/
def ghViewCmd (env : String → Option String) (pr_number : String) : List String :=
  ["gh", "pr", "view", pr_number, "--json", "baseRefName,headRefName"] ++
    (if get_repo env == "" then [] else ["--repo", get_repo env])

/-- review.py line 126: the generic `git diff` command over the two
remote-tracking refs. -/
def gitDiffCmd (base head : String) : List String :=
  ["git", "diff", "origin/" ++ base ++ "...origin/" ++ head]

/-- review.py lines 96-132, `get_pr_diff`: primary `gh pr diff`; on a
non-zero exit whose stderr contains `too_large` or `406`, fall back to the
metadata query (`check=True`) and a `git diff` over
`origin/<base>...origin/<head>` (`check=True`); any other non-zero primary
exit re-raises `CalledProcessError` on the primary command. -/
def get_pr_diff (env : String → Option String) (run : List String → CmdResult)
    (jsonLoads : String → Option JValue) (pr_number : String) :
    Except PyError String :=
  let cmd := ghDiffCmd env pr_number
  let result := run cmd
  if result.returncode = 0 then Except.ok result.stdout
  else if strContains result.stderr "too_large" || strContains result.stderr "406" then
    let pr_info_cmd := ghViewCmd env pr_number
    let pr_info_result := run pr_info_cmd
    if pr_info_result.returncode = 0 then
      match jsonLoads pr_info_result.stdout with
      | none => Except.error PyError.jsonDecodeError
      | some pr_info =>
        match jIndex pr_info "baseRefName" with
        | Except.error e => Except.error e
        | Except.ok base =>
          match jIndex pr_info "headRefName" with
          | Except.error e => Except.error e
          | Except.ok head =>
            let diff_cmd := gitDiffCmd (pyStr base) (pyStr head)
            let diff_result := run diff_cmd
            if diff_result.returncode = 0 then Except.ok diff_result.stdout
            else Except.error (PyError.calledProcessError diff_result.returncode diff_cmd)
    else Except.error (PyError.calledProcessError pr_info_result.returncode pr_info_cmd)
  else Except.error (PyError.calledProcessError result.returncode cmd)

/-! ## Review Client (review.py lines 163-187, `review_code`) -/

/-- The request a `review_code` run hands to the completion service:
review.py lines 175-184 (the sampling temperature, a float, carries no
logic and is not modeled). -/
structure ChatRequest where
  model : String
  content : String
  max_tokens : Nat

/-- review.py lines 171-173: inputs longer than 30000 characters are cut to
the first 30000 and the fixed omission notice is appended. -/
def truncate_diff (diff : String) : String :=
  if 30000 < pyLen diff then strTake diff 30000 ++ TRUNCATION_NOTICE else diff

/-- review.py lines 163-187, `review_code`: a missing or empty
`GROQ_API_KEY` raises `ValueError` before the client is built; otherwise
the (possibly truncated) diff is appended to the prompt and sent through
the completion-service oracle `client`, which models `Groq(...).chat`
together with the `choices[0].message.content` extraction. -/
def review_code (env : String → Option String)
    (client : String → ChatRequest → Except PyError String)
    (diff : String) : Except PyError String :=
  let api_key := (env "GROQ_API_KEY").getD ""
  if api_key == "" then
    Except.error (PyError.valueError "GROQ_API_KEY environment variable is not set")
  else
    client api_key
      { model := "llama-3.3-70b-versatile",
        content := REVIEW_PROMPT ++ truncate_diff diff,
        max_tokens := 4096 }

/-! ## Publisher and Orchestrator (review.py lines 190-239) -/

/-- review.py lines 190-199, `post_comment`: wrap the review in the fixed
header/footer and run `gh pr comment` with `check=True`. -/
def post_comment (env : String → Option String) (run : List String → CmdResult)
    (pr_number review : String) : Except PyError Unit :=
  let comment := "## 🤖 自動コードレビュー\n\n" ++ review ++
    "\n\n---\n*このレビューはLlama 3.3（Groq）によって自動生成されました*"
  let cmd := ["gh", "pr", "comment", pr_number, "--body", comment] ++
    (if get_repo env == "" then [] else ["--repo", get_repo env])
  let r := run cmd
  if r.returncode = 0 then Except.ok ()
  else Except.error (PyError.calledProcessError r.returncode cmd)

/-- review.py lines 202-228, `main`: resolve, fetch, stop on a blank raw
diff, filter, stop on a blank filtered diff, review, publish. -/
def main' (env files : String → Option String) (jsonLoads : String → Option JValue)
    (run : List String → CmdResult)
    (client : String → ChatRequest → Except PyError String) : Except PyError Unit :=
  match get_pr_number env files jsonLoads with
  | Except.error e => Except.error e
  | Except.ok pr_number =>
    match get_pr_diff env run jsonLoads pr_number with
    | Except.error e => Except.error e
    | Except.ok diff =>
      if pyIsBlank diff then Except.ok ()
      else
        let filtered_diff := filter_diff diff
        if pyIsBlank filtered_diff then Except.ok ()
        else
          match review_code env client filtered_diff with
          | Except.error e => Except.error e
          | Except.ok review => post_comment env run pr_number review

/-- review.py lines 231-239, the `__main__` wrapper: a normal return exits
with status 0; every raised exception is caught and mapped to status 1. -/
def script_exit (env files : String → Option String)
    (jsonLoads : String → Option JValue) (run : List String → CmdResult)
    (client : String → ChatRequest → Except PyError String) : Nat :=
  match main' env files jsonLoads run client with
  | Except.ok _ => 0
  | Except.error _ => 1


/-! ## Supporting lemmas: split/join roundtrip and the filter pass -/

@[simp] theorem asString_data (s : String) : s.data.asString = s := rfl

@[simp] theorem data_asString (l : List Char) : (List.asString l).data = l := rfl

theorem pySplitChars_ne_nil (sep : Char) (cs : List Char) :
    pySplitChars sep cs ≠ [] := by
  cases cs with
  | nil => simp [pySplitChars]
  | cons c cs => by_cases hc : c == sep <;> simp [pySplitChars, hc]

theorem pySplitChars_no_sep (sep : Char) :
    ∀ (cs : List Char), ∀ x ∈ pySplitChars sep cs, sep ∉ x := by
  intro cs
  induction cs with
  | nil =>
    intro x hx
    simp [pySplitChars] at hx
    simp [hx]
  | cons c cs ih =>
    intro x hx
    cases hr : pySplitChars sep cs with
    | nil => exact absurd hr (pySplitChars_ne_nil sep cs)
    | cons h t =>
      by_cases hc : c == sep
      · simp only [pySplitChars, hr, if_pos hc] at hx
        rcases List.mem_cons.mp hx with hx | hx
        · simp [hx]
        · exact ih x (hr ▸ hx)
      · simp only [pySplitChars, hr, if_neg hc, List.headD_cons, List.tail_cons] at hx
        rcases List.mem_cons.mp hx with hx | hx
        · subst hx
          intro hmem
          rcases List.mem_cons.mp hmem with hs | hs
          · exact hc (by simp [hs])
          · exact ih h (hr ▸ List.mem_cons_self h t) hs
        · exact ih x (hr ▸ List.mem_cons_of_mem h hx)

theorem pySplitChars_of_no_sep (sep : Char) :
    ∀ (xs : List Char), sep ∉ xs → pySplitChars sep xs = [xs] := by
  intro xs
  induction xs with
  | nil => intro _; rfl
  | cons c cs ih =>
    intro h
    have hc : ¬(c == sep) := by
      simp only [beq_iff_eq]
      intro hcc
      exact h (hcc ▸ List.mem_cons_self c cs)
    simp only [pySplitChars, ih (fun hm => h (List.mem_cons_of_mem c hm)), if_neg hc,
      List.headD_cons, List.tail_cons]

theorem pySplitChars_append_sep (sep : Char) :
    ∀ (xs l : List Char), sep ∉ xs →
      pySplitChars sep (xs ++ sep :: l) = xs :: pySplitChars sep l := by
  intro xs
  induction xs with
  | nil =>
    intro l _
    simp [pySplitChars]
  | cons c cs ih =>
    intro l h
    have hc : ¬(c == sep) := by
      simp only [beq_iff_eq]
      intro hcc
      exact h (hcc ▸ List.mem_cons_self c cs)
    have hrec := ih l (fun hm => h (List.mem_cons_of_mem c hm))
    simp only [List.cons_append, pySplitChars, if_neg hc]
    rw [show cs.append (sep :: l) = cs ++ sep :: l from rfl, hrec]
    simp

theorem pySplitChars_intercalate (sep : Char) :
    ∀ (xss : List (List Char)), xss ≠ [] → (∀ x ∈ xss, sep ∉ x) →
      pySplitChars sep (List.intercalate [sep] xss) = xss := by
  intro xss
  induction xss with
  | nil => intro h _; exact absurd rfl h
  | cons xs rest ih =>
    intro _ hall
    cases rest with
    | nil =>
      have h1 : List.intercalate [sep] [xs] = xs := by simp [List.intercalate]
      rw [h1]
      exact pySplitChars_of_no_sep sep xs (hall xs (List.mem_cons_self xs []))
    | cons y t =>
      have hstep : List.intercalate [sep] (xs :: y :: t) =
          xs ++ sep :: List.intercalate [sep] (y :: t) := by
        simp [List.intercalate, List.intersperse_cons_cons]
      rw [hstep, pySplitChars_append_sep sep xs _ (hall xs (List.mem_cons_self xs _))]
      rw [ih (by simp) (fun x hx => hall x (List.mem_cons_of_mem xs hx))]

theorem pySplit_pyJoin (sep : Char) (ls : List String) (hne : ls ≠ [])
    (h : ∀ l ∈ ls, sep ∉ l.data) : pySplit sep (pyJoin sep ls) = ls := by
  unfold pySplit pyJoin
  rw [data_asString, pySplitChars_intercalate sep (ls.map String.data)
    (by simpa using hne)
    (by
      intro x hx
      rcases List.mem_map.mp hx with ⟨l, hl, rfl⟩
      exact h l hl)]
  rw [List.map_map, show List.asString ∘ String.data = id from funext asString_data,
    List.map_id]

theorem pySplit_no_sep (sep : Char) (s : String) :
    ∀ x ∈ pySplit sep s, sep ∉ x.data := by
  intro x hx
  rcases List.mem_map.mp hx with ⟨cs, hcs, rfl⟩
  rw [data_asString]
  exact pySplitChars_no_sep sep s.data cs hcs

theorem headerFlag_true_of (include_prev : Bool) (line : String)
    (h : headerFlag include_prev line = true) : headerFlag true line = true := by
  by_cases h1 : strStartsWith line "diff --git" = true
  · by_cases h2 : 4 ≤ (pySplit ' ' line).length
    · simpa [headerFlag, h1, h2] using h
    · simp [headerFlag, h1, h2]
  · simp [headerFlag, h1]

theorem mem_filterLines (l : String) :
    ∀ (ls : List String) (inc : Bool), l ∈ filterLines inc ls →
      headerFlag true l = true := by
  intro ls
  induction ls with
  | nil => intro inc h; simp [filterLines] at h
  | cons line rest ih =>
    intro inc h
    simp only [filterLines] at h
    rcases List.mem_append.mp h with h | h
    · by_cases hf : headerFlag inc line = true
      · rw [if_pos hf] at h
        rcases List.mem_singleton.mp h with rfl
        exact headerFlag_true_of inc l hf
      · rw [if_neg hf] at h
        exact absurd h (List.not_mem_nil l)
    · exact ih _ h

theorem filterLines_false_head :
    ∀ (ls : List String) (l : String) (out : List String),
      filterLines false ls = l :: out → headerFlag false l = true := by
  intro ls
  induction ls with
  | nil => intro l out h; simp [filterLines] at h
  | cons line rest ih =>
    intro l out h
    by_cases hf : headerFlag false line = true
    · rw [filterLines, if_pos hf, List.singleton_append] at h
      injection h with h1 _
      exact h1 ▸ hf
    · rw [filterLines, if_neg hf, List.nil_append, Bool.eq_false_iff.mpr hf] at h
      exact ih l out h

theorem filterLines_true_all :
    ∀ (ls : List String), (∀ l ∈ ls, headerFlag true l = true) →
      filterLines true ls = ls := by
  intro ls
  induction ls with
  | nil => intro _; rfl
  | cons line rest ih =>
    intro h
    have h1 : headerFlag true line = true := h line (List.mem_cons_self line rest)
    rw [filterLines, if_pos h1, h1, List.singleton_append,
      ih (fun l hl => h l (List.mem_cons_of_mem line hl))]

theorem filterLines_sublist :
    ∀ (ls : List String) (inc : Bool), (filterLines inc ls).Sublist ls := by
  intro ls
  induction ls with
  | nil => intro inc; simp [filterLines]
  | cons line rest ih =>
    intro inc
    by_cases hf : headerFlag inc line = true
    · rw [filterLines, if_pos hf, hf, List.singleton_append]
      exact (ih true).cons₂ line
    · rw [filterLines, if_neg hf, List.nil_append, Bool.eq_false_iff.mpr hf]
      exact (ih false).cons line

theorem filterLines_idem (ls : List String) :
    filterLines false (filterLines false ls) = filterLines false ls := by
  cases h : filterLines false ls with
  | nil => rfl
  | cons l out =>
    have hl : headerFlag false l = true := filterLines_false_head ls l out h
    have hall : ∀ x ∈ out, headerFlag true x = true := by
      intro x hx
      exact mem_filterLines x ls false (h ▸ List.mem_cons_of_mem l hx)
    rw [filterLines, if_pos hl, hl, List.singleton_append, filterLines_true_all out hall]

/-! ## Claim theorems -/

/-- C1: the Diff Filter's inclusion test accepts a path iff its extension,
lower-cased, is in `CODE_EXTENSIONS` and no `EXCLUDED_PATHS` fragment is a
substring of the path; a path with no extension is never included; a
deny-listed fragment excludes the path even when the extension is
allow-listed (exclusion dominates). -/
theorem include_file_iff (p : String) :
    (include_file p = true ↔
      pyLower (splitextExt p) ∈ CODE_EXTENSIONS ∧
        ∀ e ∈ EXCLUDED_PATHS, strContains p e = false)
    ∧ (splitextExt p = "" → include_file p = false)
    ∧ (∀ e ∈ EXCLUDED_PATHS, strContains p e = true → include_file p = false) := by
  refine ⟨?_, ?_, ?_⟩
  · simp only [include_file]
    constructor
    · intro h
      rw [Bool.and_eq_true] at h
      obtain ⟨h1, h2⟩ := h
      refine ⟨by simpa using h1, ?_⟩
      intro e he
      cases hb : strContains p e
      · rfl
      · have hany : EXCLUDED_PATHS.any (fun excluded => strContains p excluded) = true :=
          List.any_eq_true.mpr ⟨e, he, hb⟩
        rw [hany] at h2
        exact absurd h2 (by simp)
    · rintro ⟨h1, h2⟩
      rw [Bool.and_eq_true]
      refine ⟨by simpa using h1, ?_⟩
      cases hany : EXCLUDED_PATHS.any (fun excluded => strContains p excluded)
      · rfl
      · obtain ⟨e, he, hce⟩ := List.any_eq_true.mp hany
        rw [h2 e he] at hce
        exact absurd hce (by simp)
  · intro h
    simp only [include_file, h]
    have hc : CODE_EXTENSIONS.contains (pyLower "") = false := by decide
    rw [hc, Bool.false_and]
  · intro e he hc
    simp only [include_file]
    have hany : EXCLUDED_PATHS.any (fun excluded => strContains p excluded) = true :=
      List.any_eq_true.mpr ⟨e, he, hc⟩
    rw [hany]
    simp

theorem include_file_iff_witness :
    include_file "vendor/lib.py" = false ∧ include_file "src/app.py" = true := by
  constructor
  · exact (include_file_iff "vendor/lib.py").2.2 "vendor/" (by decide) (by decide)
  · exact (include_file_iff "src/app.py").1.mpr (by decide)

/-- C2: the Diff Filter is idempotent — filtering an already-filtered diff
returns it unchanged. -/
theorem filter_diff_idempotent (d : String) :
    filter_diff (filter_diff d) = filter_diff d := by
  unfold filter_diff
  cases h : filterLines false (pySplit '\n' d) with
  | nil => rfl
  | cons l out =>
    have hnl : ∀ x ∈ l :: out, '\n' ∉ x.data := fun x hx =>
      pySplit_no_sep '\n' d x ((filterLines_sublist _ _).subset (h ▸ hx))
    rw [pySplit_pyJoin '\n' (l :: out) (by simp) hnl, ← h, filterLines_idem]

/-- C3: the sequence of `diff --git` header lines of the filtered diff is an
order-preserving subsequence (a `List.Sublist`) of the header lines of the
input diff: no header is introduced, duplicated or reordered. -/
theorem filter_diff_headers_sublist (D : String) :
    ((pySplit '\n' (filter_diff D)).filter
        (fun l => strStartsWith l "diff --git")).Sublist
      ((pySplit '\n' D).filter (fun l => strStartsWith l "diff --git")) := by
  unfold filter_diff
  cases h : filterLines false (pySplit '\n' D) with
  | nil =>
    have h0 : (pySplit '\n' (pyJoin '\n' ([] : List String))).filter
        (fun l => strStartsWith l "diff --git") = [] := rfl
    rw [h0]
    exact List.nil_sublist _
  | cons l out =>
    have hnl : ∀ x ∈ l :: out, '\n' ∉ x.data := fun x hx =>
      pySplit_no_sep '\n' D x ((filterLines_sublist _ _).subset (h ▸ hx))
    rw [pySplit_pyJoin '\n' (l :: out) (by simp) hnl]
    exact (h ▸ filterLines_sublist (pySplit '\n' D) false).filter _

/-- C4: the filter is a single pass with one boolean flag, initially false:
lines before the first `diff --git` header contribute nothing; each step
emits the line exactly when the recomputed flag is true (the header line
included) and threads the recomputed flag; on a well-formed header the new
flag fully replaces the old one (it does not depend on it) and equals the
inclusion test on the parsed, prefix-stripped path. -/
theorem filter_single_pass :
    (∀ (pre post : List String), (∀ l ∈ pre, strStartsWith l "diff --git" = false) →
        filterLines false (pre ++ post) = filterLines false post)
    ∧ (∀ (inc : Bool) (line : String) (rest : List String),
        filterLines inc (line :: rest) =
          (if headerFlag inc line then [line] else []) ++
            filterLines (headerFlag inc line) rest)
    ∧ (∀ (b b' : Bool) (line : String), strStartsWith line "diff --git" = true →
        4 ≤ (pySplit ' ' line).length → headerFlag b line = headerFlag b' line)
    ∧ (∀ (line : String), strStartsWith line "diff --git" = true →
        4 ≤ (pySplit ' ' line).length →
        headerFlag false line =
          include_file (strDrop ((pySplit ' ' line).getD 2 "") 2)) := by
  refine ⟨?_, ?_, ?_, ?_⟩
  · intro pre post h
    induction pre with
    | nil => rfl
    | cons line rest ih =>
      have h1 : strStartsWith line "diff --git" = false :=
        h line (List.mem_cons_self line rest)
      have hfl : headerFlag false line = false := by simp [headerFlag, h1]
      have hrec := ih (fun l hl => h l (List.mem_cons_of_mem line hl))
      rw [List.cons_append, filterLines, hfl]
      simpa using hrec
  · intro inc line rest
    rfl
  · intro b b' line h1 h2
    simp [headerFlag, h1, h2]
  · intro line h1 h2
    simp [headerFlag, h1, h2]

theorem filter_single_pass_witness :
    filterLines false (["index 000", "ctx"] ++ ["+x"]) = filterLines false ["+x"]
    ∧ headerFlag false "diff --git a/app.py b/app.py" =
        headerFlag true "diff --git a/app.py b/app.py" := by
  constructor
  · exact filter_single_pass.1 ["index 000", "ctx"] ["+x"] (by decide)
  · exact filter_single_pass.2.2.1 false true "diff --git a/app.py b/app.py"
      (by decide) (by decide)

/-- C10: a line starting with `diff --git` that splits into fewer than four
space-separated parts does not recompute the flag — it and the lines after
it are kept exactly when the previous section was included; on a
well-formed header the tested path is the third part with its first two
characters stripped unconditionally. -/
theorem filter_malformed_header :
    (∀ (inc : Bool) (line : String) (rest : List String),
        strStartsWith line "diff --git" = true → (pySplit ' ' line).length < 4 →
        filterLines inc (line :: rest) =
          (if inc then [line] else []) ++ filterLines inc rest)
    ∧ (∀ (b : Bool) (line : String), strStartsWith line "diff --git" = true →
        4 ≤ (pySplit ' ' line).length →
        headerFlag b line =
          include_file (strDrop ((pySplit ' ' line).getD 2 "") 2)) := by
  constructor
  · intro inc line rest h1 h2
    have hfl : headerFlag inc line = inc := by
      simp [headerFlag, h1, Nat.not_le.mpr h2]
    rw [filterLines, hfl]
  · intro b line h1 h2
    simp [headerFlag, h1, h2]

theorem filter_malformed_header_witness :
    filterLines false ("diff --git malformed" :: ["ctx"]) =
      (if false then ["diff --git malformed"] else []) ++ filterLines false ["ctx"]
    ∧ headerFlag true "diff --git a/x.py b/x.py" = include_file "x.py" := by
  constructor
  · exact filter_malformed_header.1 false "diff --git malformed" ["ctx"]
      (by decide) (by decide)
  · have h := filter_malformed_header.2 true "diff --git a/x.py b/x.py"
      (by decide) (by decide)
    rw [show strDrop ((pySplit ' ' "diff --git a/x.py b/x.py").getD 2 "") 2 = "x.py"
      from rfl] at h
    exact h

/-- C7: truncation is a no-op at or below the 30000-character threshold;
above it the result is the 30000-character prefix followed by the fixed
omission notice, so its length is the threshold plus the notice's length. -/
theorem truncate_diff_spec (d : String) :
    (pyLen d ≤ 30000 → truncate_diff d = d)
    ∧ (30000 < pyLen d →
        truncate_diff d = strTake d 30000 ++ TRUNCATION_NOTICE ∧
          pyLen (truncate_diff d) = 30000 + pyLen TRUNCATION_NOTICE) := by
  constructor
  · intro h
    simp [truncate_diff, Nat.not_lt.mpr h]
  · intro h
    have he : truncate_diff d = strTake d 30000 ++ TRUNCATION_NOTICE := by
      simp [truncate_diff, h]
    refine ⟨he, ?_⟩
    rw [he]
    simp only [pyLen, String.data_append, List.length_append, strTake, data_asString,
      List.length_take]
    have h2 : 30000 < d.data.length := h
    omega

theorem truncate_diff_spec_witness :
    truncate_diff "short" = "short"
    ∧ pyLen (truncate_diff (List.asString (List.replicate 30001 'a'))) =
        30000 + pyLen TRUNCATION_NOTICE := by
  constructor
  · exact (truncate_diff_spec "short").1 (by decide)
  · refine ((truncate_diff_spec (List.asString (List.replicate 30001 'a'))).2 ?_).2
    simp only [pyLen, data_asString, List.length_replicate]
    decide

/-- C9: with the service credential absent (or empty) in the environment,
`review_code` fails with the fixed `ValueError` on every diff, and its
result does not depend on the completion-service oracle at all — no
network call is made. -/
theorem review_code_missing_key (env : String → Option String)
    (client client' : String → ChatRequest → Except PyError String) (diff : String)
    (h : (env "GROQ_API_KEY").getD "" = "") :
    review_code env client diff =
      Except.error (PyError.valueError "GROQ_API_KEY environment variable is not set")
    ∧ review_code env client diff = review_code env client' diff := by
  constructor <;> simp [review_code, h]

def envNoKey : String → Option String := fun _ => none

def clientA : String → ChatRequest → Except PyError String := fun _ _ => Except.ok "ok"

def clientB : String → ChatRequest → Except PyError String := fun _ _ =>
  Except.error PyError.jsonDecodeError

theorem review_code_missing_key_witness :
    review_code envNoKey clientA "diff" =
      Except.error (PyError.valueError "GROQ_API_KEY environment variable is not set")
    ∧ review_code envNoKey clientA "diff" = review_code envNoKey clientB "diff" :=
  review_code_missing_key envNoKey clientA clientB "diff" rfl

/-- C5: `get_pr_diff` returns the primary command's output on exit 0; on a
non-zero exit it falls back exactly when the primary stderr contains one of
the two signatures `too_large` / `406` — any other non-zero exit raises
`CalledProcessError` on the primary command without fallback; on fallback,
with the metadata query succeeding and parsing to base/head branch names,
the result is that of the generic `git diff` over
`origin/<base>...origin/<head>`. -/
theorem get_pr_diff_fallback (env : String → Option String)
    (run : List String → CmdResult) (jsonLoads : String → Option JValue)
    (pr : String) :
    ((run (ghDiffCmd env pr)).returncode = 0 →
        get_pr_diff env run jsonLoads pr = Except.ok (run (ghDiffCmd env pr)).stdout)
    ∧ ((run (ghDiffCmd env pr)).returncode ≠ 0 →
        strContains (run (ghDiffCmd env pr)).stderr "too_large" = false →
        strContains (run (ghDiffCmd env pr)).stderr "406" = false →
        get_pr_diff env run jsonLoads pr =
          Except.error (PyError.calledProcessError
            (run (ghDiffCmd env pr)).returncode (ghDiffCmd env pr)))
    ∧ ((run (ghDiffCmd env pr)).returncode ≠ 0 →
        (strContains (run (ghDiffCmd env pr)).stderr "too_large" = true ∨
          strContains (run (ghDiffCmd env pr)).stderr "406" = true) →
        (run (ghViewCmd env pr)).returncode = 0 →
        ∀ (base head : String) (fields : List (String × JValue)),
          jsonLoads (run (ghViewCmd env pr)).stdout = some (JValue.obj fields) →
          jLookup "baseRefName" fields = some (JValue.str base) →
          jLookup "headRefName" fields = some (JValue.str head) →
          get_pr_diff env run jsonLoads pr =
            (if (run (gitDiffCmd base head)).returncode = 0 then
              Except.ok (run (gitDiffCmd base head)).stdout
            else
              Except.error (PyError.calledProcessError
                (run (gitDiffCmd base head)).returncode (gitDiffCmd base head)))) := by
  refine ⟨?_, ?_, ?_⟩
  · intro h
    simp [get_pr_diff, h]
  · intro h h1 h2
    simp [get_pr_diff, h, h1, h2]
  · intro h hsig hrc base head fields hj hb hh
    have hsig' : (strContains (run (ghDiffCmd env pr)).stderr "too_large" ||
        strContains (run (ghDiffCmd env pr)).stderr "406") = true := by
      rcases hsig with h1 | h1 <;> simp [h1]
    simp [get_pr_diff, h, hsig', hrc, hj, jIndex, hb, hh, pyStr]

def env5 : String → Option String := fun _ => none

def run5 : List String → CmdResult := fun cmd =>
  if cmd = ["gh", "pr", "diff", "42"] then ⟨1, "", "error: diff too_large to render"⟩
  else if cmd = ["gh", "pr", "view", "42", "--json", "baseRefName,headRefName"] then
    ⟨0, "INFO", ""⟩
  else if cmd = ["git", "diff", "origin/main...origin/feature-x"] then ⟨0, "THEDIFF", ""⟩
  else ⟨1, "", ""⟩

def jl5 : String → Option JValue := fun s =>
  if s = "INFO" then
    some (JValue.obj [("baseRefName", JValue.str "main"),
      ("headRefName", JValue.str "feature-x")])
  else none

theorem get_pr_diff_fallback_witness :
    get_pr_diff env5 run5 jl5 "42" =
      (if (run5 (gitDiffCmd "main" "feature-x")).returncode = 0 then
        Except.ok (run5 (gitDiffCmd "main" "feature-x")).stdout
      else
        Except.error (PyError.calledProcessError
          (run5 (gitDiffCmd "main" "feature-x")).returncode
          (gitDiffCmd "main" "feature-x"))) :=
  (get_pr_diff_fallback env5 run5 jl5 "42").2.2 (by decide) (Or.inl (by decide))
    (by decide) "main" "feature-x"
    [("baseRefName", JValue.str "main"), ("headRefName", JValue.str "feature-x")]
    rfl rfl rfl

def envEventOnly : String → Option String := fun k =>
  if k = "GITHUB_EVENT_PATH" then some "/github/event.json" else none

def filesEvent : String → Option String := fun p =>
  if p = "/github/event.json" then some "EVENT" else none

def jsonLoadsPrNoNumber : String → Option JValue := fun _ =>
  some (JValue.obj [("pull_request", JValue.obj []), ("number", JValue.num 7)])

/-- C6 counterexample: for an event file parsing to a `pull_request` record
without a `number` field next to a top-level `number` of 7, the claimed
resolver returns `"7"` (nested field absent, top-level field present), but
`get_pr_number` raises `KeyError` on the nested access instead. -/
theorem get_pr_number_counterexample :
    get_pr_number envEventOnly filesEvent jsonLoadsPrNoNumber =
      Except.error (PyError.keyError "number")
    ∧ get_pr_number envEventOnly filesEvent jsonLoadsPrNoNumber ≠
        Except.ok "7" := by
  constructor
  · rfl
  · intro hcon
    rw [show get_pr_number envEventOnly filesEvent jsonLoadsPrNoNumber =
      Except.error (PyError.keyError "number") from rfl] at hcon
    exact Except.noConfusion hcon

/-- C6 (amended): `get_pr_number` follows the priority order — with a usable
event file, a present `pull_request` record wins: its `number` field is
returned stringified, and a fatal `KeyError` is raised when that record
lacks `number` (the top-level field is not consulted); without
`pull_request`, a top-level `number` is returned stringified; with no
usable value from the event file, the `GITHUB_REF` string is consulted and
the component after the first `pull` component is returned when the ref
contains `/pull/`; otherwise resolution fails with the fatal `ValueError`. -/
theorem get_pr_number_priority (env files : String → Option String)
    (jsonLoads : String → Option JValue) :
    (∀ (content : String) (fields prf : List (String × JValue)) (v : JValue),
        eventContent env files = some content →
        jsonLoads content = some (JValue.obj fields) →
        jLookup "pull_request" fields = some (JValue.obj prf) →
        jLookup "number" prf = some v →
        get_pr_number env files jsonLoads = Except.ok (pyStr v))
    ∧ (∀ (content : String) (fields prf : List (String × JValue)),
        eventContent env files = some content →
        jsonLoads content = some (JValue.obj fields) →
        jLookup "pull_request" fields = some (JValue.obj prf) →
        jLookup "number" prf = none →
        get_pr_number env files jsonLoads = Except.error (PyError.keyError "number"))
    ∧ (∀ (content : String) (fields : List (String × JValue)) (v : JValue),
        eventContent env files = some content →
        jsonLoads content = some (JValue.obj fields) →
        jLookup "pull_request" fields = none →
        jLookup "number" fields = some v →
        get_pr_number env files jsonLoads = Except.ok (pyStr v))
    ∧ (∀ (content : String) (fields : List (String × JValue)),
        eventContent env files = some content →
        jsonLoads content = some (JValue.obj fields) →
        jLookup "pull_request" fields = none →
        jLookup "number" fields = none →
        get_pr_number env files jsonLoads = refLookup env)
    ∧ (eventContent env files = none →
        get_pr_number env files jsonLoads = refLookup env)
    ∧ (∀ (n : String), strContains ((env "GITHUB_REF").getD "") "/pull/" = true →
        refExtract (pySplit '/' ((env "GITHUB_REF").getD "")) = some n →
        refLookup env = Except.ok n)
    ∧ (strContains ((env "GITHUB_REF").getD "") "/pull/" = false →
        refLookup env = Except.error (PyError.valueError "PR番号を取得できませんでした")) := by
  refine ⟨?_, ?_, ?_, ?_, ?_, ?_, ?_⟩
  · intro content fields prf v hc hj hpr hn
    simp [get_pr_number, hc, eventLookup, hj, pyIn, hpr, jIndex, hn]
  · intro content fields prf hc hj hpr hn
    simp [get_pr_number, hc, eventLookup, hj, pyIn, hpr, jIndex, hn]
  · intro content fields v hc hj hpr hn
    simp [get_pr_number, hc, eventLookup, hj, pyIn, hpr, jIndex, hn]
  · intro content fields hc hj hpr hn
    simp [get_pr_number, hc, eventLookup, hj, pyIn, hpr, jIndex, hn]
  · intro hc
    simp [get_pr_number, hc]
  · intro n h1 h2
    simp [refLookup, h1, h2]
  · intro h1
    simp [refLookup, h1]

def jsonLoadsPrNumber : String → Option JValue := fun _ =>
  some (JValue.obj [("pull_request", JValue.obj [("number", JValue.num 7)])])

theorem get_pr_number_priority_witness :
    get_pr_number envEventOnly filesEvent jsonLoadsPrNumber =
      Except.ok (pyStr (JValue.num 7)) :=
  (get_pr_number_priority envEventOnly filesEvent jsonLoadsPrNumber).1
    "EVENT" [("pull_request", JValue.obj [("number", JValue.num 7)])]
    [("number", JValue.num 7)] (JValue.num 7) rfl rfl rfl rfl

/-- C8: the orchestrator exits 0 without consulting the review service or
the comment command in exactly the two blank no-op cases (blank raw diff,
blank filtered diff) — the conclusions hold for every completion-service
oracle `client`, and the run oracle `run` is constrained only through the
diff-retrieval hypothesis; in every other case it proceeds to review and
then publication, and a failure of any stage (resolution, retrieval,
review, publication) exits 1. -/
theorem main_exit_behavior (env files : String → Option String)
    (jsonLoads : String → Option JValue) (run : List String → CmdResult)
    (client : String → ChatRequest → Except PyError String) :
    (∀ (e : PyError), get_pr_number env files jsonLoads = Except.error e →
        script_exit env files jsonLoads run client = 1)
    ∧ (∀ (pr : String) (e : PyError),
        get_pr_number env files jsonLoads = Except.ok pr →
        get_pr_diff env run jsonLoads pr = Except.error e →
        script_exit env files jsonLoads run client = 1)
    ∧ (∀ (pr d : String),
        get_pr_number env files jsonLoads = Except.ok pr →
        get_pr_diff env run jsonLoads pr = Except.ok d →
        pyIsBlank d = true →
        main' env files jsonLoads run client = Except.ok () ∧
          script_exit env files jsonLoads run client = 0)
    ∧ (∀ (pr d : String),
        get_pr_number env files jsonLoads = Except.ok pr →
        get_pr_diff env run jsonLoads pr = Except.ok d →
        pyIsBlank d = false →
        pyIsBlank (filter_diff d) = true →
        main' env files jsonLoads run client = Except.ok () ∧
          script_exit env files jsonLoads run client = 0)
    ∧ (∀ (pr d : String) (e : PyError),
        get_pr_number env files jsonLoads = Except.ok pr →
        get_pr_diff env run jsonLoads pr = Except.ok d →
        pyIsBlank d = false →
        pyIsBlank (filter_diff d) = false →
        review_code env client (filter_diff d) = Except.error e →
        script_exit env files jsonLoads run client = 1)
    ∧ (∀ (pr d r : String),
        get_pr_number env files jsonLoads = Except.ok pr →
        get_pr_diff env run jsonLoads pr = Except.ok d →
        pyIsBlank d = false →
        pyIsBlank (filter_diff d) = false →
        review_code env client (filter_diff d) = Except.ok r →
        main' env files jsonLoads run client = post_comment env run pr r)
    ∧ (∀ (pr d r : String) (e : PyError),
        get_pr_number env files jsonLoads = Except.ok pr →
        get_pr_diff env run jsonLoads pr = Except.ok d →
        pyIsBlank d = false →
        pyIsBlank (filter_diff d) = false →
        review_code env client (filter_diff d) = Except.ok r →
        post_comment env run pr r = Except.error e →
        script_exit env files jsonLoads run client = 1) := by
  refine ⟨?_, ?_, ?_, ?_, ?_, ?_, ?_⟩
  · intro e h1
    simp [script_exit, main', h1]
  · intro pr e h1 h2
    simp [script_exit, main', h1, h2]
  · intro pr d h1 h2 h3
    constructor <;> simp [script_exit, main', h1, h2, h3]
  · intro pr d h1 h2 h3 h4
    constructor <;> simp [script_exit, main', h1, h2, h3, h4]
  · intro pr d e h1 h2 h3 h4 h5
    simp [script_exit, main', h1, h2, h3, h4, h5]
  · intro pr d r h1 h2 h3 h4 h5
    simp [main', h1, h2, h3, h4, h5]
  · intro pr d r e h1 h2 h3 h4 h5 h6
    simp [script_exit, main', h1, h2, h3, h4, h5, h6]

def envRef : String → Option String := fun k =>
  if k = "GITHUB_REF" then some "refs/pull/7/merge" else none

def filesNone : String → Option String := fun _ => none

def jsonLoadsNone : String → Option JValue := fun _ => none

def runEmptyDiff : List String → CmdResult := fun cmd =>
  if cmd = ["gh", "pr", "diff", "7"] then ⟨0, "", ""⟩ else ⟨1, "", ""⟩

theorem main_exit_behavior_witness :
    script_exit envRef filesNone jsonLoadsNone runEmptyDiff clientA = 0 :=
  ((main_exit_behavior envRef filesNone jsonLoadsNone runEmptyDiff clientA).2.2.1
    "7" "" rfl rfl rfl).2
